import Mathlib

/-!
Verification of the NEXUS-X audio engine (src-tauri/src/mixer.rs and
src-tauri/src/main.rs) against its natural-language specification.

The Rust `f64` arithmetic is modelled over the real numbers `ℝ`; the
transcendental library calls (`sin`, `cos`, `exp`, `powf`) become the
corresponding Mathlib functions.  Fallible operations (slice indexing,
remainder by zero — both of which panic in Rust) are modelled with
`Option`: `none` stands for a panic.  The `f64 → f32` cast at the end of
`process_master` and the `f64 → usize` / `f64 → u64` saturating casts are
modelled by the identity on `ℝ` and by `Nat.floor` respectively.
-/

noncomputable section

/-- Rust `f64::clamp(lo, hi)` (for `lo ≤ hi`, the only way it is called). -/
def clampR (x lo hi : ℝ) : ℝ := min (max x lo) hi

/-- Rust `f64::signum`: `-1.0` for negative values, `1.0` for positive
values and (positive) zero.  (`ℝ` has no negative zero or NaN.) -/
def rsignum (x : ℝ) : ℝ := if x < 0 then -1 else 1

/-! ## mixer.rs: EqBand -/

/-- Struct `EqBand` (mixer.rs lines 10-20): biquad filter coefficients plus the
two-sample input/output history. -/
structure EqBand where
  frequency : ℝ
  gain : ℝ
  q : ℝ
  b0 : ℝ
  b1 : ℝ
  b2 : ℝ
  a1 : ℝ
  a2 : ℝ
  x1 : ℝ
  x2 : ℝ
  y1 : ℝ
  y2 : ℝ

/-- Constructor `EqBand::new` (mixer.rs lines 23-49). -/
def EqBand.new (frequency gain_db q sample_rate : ℝ) : EqBand :=
  let a : ℝ := (10 : ℝ) ^ (gain_db / 40)
  let w0 : ℝ := 2 * Real.pi * frequency / sample_rate
  let alpha : ℝ := Real.sin w0 / (2 * q)
  let b0 : ℝ := 1 + alpha * a
  let b1 : ℝ := -2 * Real.cos w0
  let b2 : ℝ := 1 - alpha * a
  let a0 : ℝ := 1 + alpha / a
  let a1 : ℝ := 2 * Real.cos w0
  let a2 : ℝ := -(1 - alpha / a)
  { frequency := frequency
    gain := gain_db
    q := q
    b0 := b0 / a0
    b1 := b1 / a0
    b2 := b2 / a0
    a1 := a1 / a0
    a2 := a2 / a0
    x1 := 0
    x2 := 0
    y1 := 0
    y2 := 0 }

/-- Method `EqBand::process` (mixer.rs lines 53-66): returns the output sample and
the band with its history shifted. -/
def EqBand.process (s : EqBand) (input : ℝ) : ℝ × EqBand :=
  let output := s.b0 * input + s.b1 * s.x1 + s.b2 * s.x2 - s.a1 * s.y1 - s.a2 * s.y2
  (output, { s with x2 := s.x1, x1 := input, y2 := s.y1, y1 := output })

/-- Method `EqBand::update` (mixer.rs lines 68-71): `*self = Self::new(self.frequency,
gain_db, self.q, sample_rate)`. -/
def EqBand.update (s : EqBand) (gain_db sample_rate : ℝ) : EqBand :=
  EqBand.new s.frequency gain_db s.q sample_rate

/-! ## mixer.rs: Limiter -/

/-- Struct `Limiter` (mixer.rs lines 75-83). -/
structure Limiter where
  threshold : ℝ
  release : ℝ
  lookahead : ℕ
  buffer : List ℝ
  buffer_pos : ℕ
  envelope : ℝ
  sample_rate : ℝ

/-- Constructor `Limiter::new` (mixer.rs lines 86-97); the `f64 → usize` cast of
`sample_rate * 0.005` truncates toward zero and saturates below at `0`,
which on `ℝ` is `Nat.floor`. -/
def Limiter.new (sample_rate threshold release : ℝ) : Limiter :=
  let lookahead : ℕ := ⌊sample_rate * 0.005⌋₊
  { threshold := threshold
    release := release
    lookahead := lookahead
    buffer := List.replicate (lookahead + 1) 0
    buffer_pos := 0
    envelope := 0
    sample_rate := sample_rate }

/-- Method `Limiter::process` (mixer.rs lines 100-129).  `none` models a panic:
either the write `self.buffer[self.buffer_pos]` indexing out of bounds, the
remainder `% self.lookahead` with `self.lookahead == 0`, or the read
`self.buffer[delayed_pos]` indexing out of bounds — in source order. -/
def Limiter.process (s : Limiter) (input : ℝ) : Option (ℝ × Limiter) :=
  if s.buffer_pos < s.buffer.length then
    let buf := s.buffer.set s.buffer_pos input
    let absInput := |input|
    let attackCoeff : ℝ := 0.9999
    let releaseCoeff : ℝ := Real.exp (-1 / (s.release * s.sample_rate))
    let env :=
      if absInput > s.envelope then
        attackCoeff * s.envelope + (1 - attackCoeff) * absInput
      else
        releaseCoeff * s.envelope + (1 - releaseCoeff) * absInput
    let gain := if env > s.threshold then s.threshold / env else 1
    if s.lookahead = 0 then none
    else
      let delayedPos := (s.buffer_pos + 1) % s.lookahead
      if delayedPos < buf.length then
        some (buf.getD delayedPos 0 * gain,
          { s with buffer := buf, buffer_pos := delayedPos, envelope := env })
      else none
  else none

/-- Repeated application of `Limiter::process` to a list of inputs,
collecting the outputs; `none` as soon as any call panics. -/
def Limiter.run (s : Limiter) : List ℝ → Option (List ℝ × Limiter)
  | [] => some ([], s)
  | x :: xs =>
    match s.process x with
    | none => none
    | some (y, s') =>
      match s'.run xs with
      | none => none
      | some (ys, s'') => some (y :: ys, s'')

/-! ## mixer.rs: SoftClipper -/

/-- Struct `SoftClipper` (mixer.rs lines 134-137). -/
structure SoftClipper where
  threshold : ℝ
  amount : ℝ

/-- Constructor `SoftClipper::new` (mixer.rs lines 140-142). -/
def SoftClipper.new (threshold amount : ℝ) : SoftClipper :=
  { threshold := threshold, amount := amount }

/-- Method `SoftClipper::process` (mixer.rs lines 145-155): identity below the
threshold, otherwise the excess magnitude is compressed and the result is
capped at unit magnitude, preserving sign. -/
def SoftClipper.process (c : SoftClipper) (input : ℝ) : ℝ :=
  let absInput := |input|
  if absInput < c.threshold then input
  else
    let sign := rsignum input
    let excess := absInput - c.threshold
    let clipped := c.threshold + excess / (1 + excess * c.amount)
    sign * min clipped 1

/-! ## mixer.rs: Mixer -/

/-- Struct `Mixer` (mixer.rs lines 159-172). -/
structure Mixer where
  eq_low : EqBand
  eq_mid : EqBand
  eq_high : EqBand
  limiter : Limiter
  clipper : SoftClipper
  master_volume : ℝ
  sample_rate : ℝ

/-- Constructor `Mixer::new` (mixer.rs lines 175-185). -/
def Mixer.new (sample_rate : ℝ) : Mixer :=
  { eq_low := EqBand.new 100 0 0.7 sample_rate
    eq_mid := EqBand.new 1000 0 1 sample_rate
    eq_high := EqBand.new 8000 0 0.7 sample_rate
    limiter := Limiter.new sample_rate 0.95 0.1
    clipper := SoftClipper.new 0.8 2
    master_volume := 0.8
    sample_rate := sample_rate }

/-- The body of the `mix_channels` loop (mixer.rs lines 197-213) for one
channel `(sample, volume, pan, muted, soloed)`: skip muted tracks (and
non-soloed tracks when any track is soloed), otherwise accumulate the
volume-scaled sample with constant-power pan gains. -/
def mixChannelStep (any_soloed : Bool) (acc : ℝ × ℝ)
    (c : ℝ × ℝ × ℝ × Bool × Bool) : ℝ × ℝ :=
  let sample := c.1
  let volume := c.2.1
  let pan := c.2.2.1
  let muted := c.2.2.2.1
  let soloed := c.2.2.2.2
  if muted || (any_soloed && !soloed) then acc
  else
    let volSample := sample * volume
    let angle := (pan + 1) * Real.pi / 4
    (acc.1 + volSample * Real.cos angle, acc.2 + volSample * Real.sin angle)

/-- Method `Mixer::mix_channels` (mixer.rs lines 189-216).  A channel is
`(sample, volume, pan, muted, soloed)`; the mixer value itself is unused by
the source body (it is a `&self` method). -/
def Mixer.mix_channels (_m : Mixer) (channels : List (ℝ × ℝ × ℝ × Bool × Bool))
    (any_soloed : Bool) : ℝ × ℝ :=
  channels.foldl (mixChannelStep any_soloed) (0, 0)

/-- The EQ section of `process_master` (mixer.rs lines 222-228): the left
sample runs through the three bands, then the right sample runs through the
*same three band values* as updated by the left pass.  Returns the two EQ
outputs and the three band states after the right pass. -/
def eqChain (m : Mixer) (left right : ℝ) : (ℝ × ℝ) × EqBand × EqBand × EqBand :=
  let pL1 := m.eq_low.process left
  let pL2 := m.eq_mid.process pL1.1
  let pL3 := m.eq_high.process pL2.1
  let pR1 := pL1.2.process right
  let pR2 := pL2.2.process pR1.1
  let pR3 := pL3.2.process pR2.1
  ((pL3.1, pR3.1), pR1.2, pR2.2, pR3.2)

/-- Method `Mixer::process_master` (mixer.rs lines 220-243): the EQ section, then
master volume, the limiter (left then right, threading its state), and the
soft clipper.  The final `f64 → f32` casts are modelled as the identity. -/
def Mixer.process_master (m : Mixer) (left right : ℝ) : Option ((ℝ × ℝ) × Mixer) :=
  let c := eqChain m left right
  let volL := c.1.1 * m.master_volume
  let volR := c.1.2 * m.master_volume
  match m.limiter.process volL with
  | none => none
  | some (limL, lim1) =>
    match lim1.process volR with
    | none => none
    | some (limR, lim2) =>
      some ((m.clipper.process limL, m.clipper.process limR),
        { m with eq_low := c.2.1, eq_mid := c.2.2.1, eq_high := c.2.2.2, limiter := lim2 })

/-- Method `Mixer::set_eq` (mixer.rs lines 246-250). -/
def Mixer.set_eq (m : Mixer) (low_db mid_db high_db : ℝ) : Mixer :=
  { m with
    eq_low := m.eq_low.update low_db m.sample_rate
    eq_mid := m.eq_mid.update mid_db m.sample_rate
    eq_high := m.eq_high.update high_db m.sample_rate }

/-- Method `Mixer::set_limiter_threshold` (mixer.rs lines 253-255). -/
def Mixer.set_limiter_threshold (m : Mixer) (threshold : ℝ) : Mixer :=
  { m with limiter := { m.limiter with threshold := clampR threshold 0 1 } }

/-- Method `Mixer::set_clip_amount` (mixer.rs lines 258-260). -/
def Mixer.set_clip_amount (m : Mixer) (amount : ℝ) : Mixer :=
  { m with clipper := { m.clipper with amount := clampR amount 0 10 } }

/-! ## main.rs: audio thread state and the stream callback

The audio callback (main.rs lines 175-337) is a sequential loop over one
output buffer: it drains the command channel, pushes the master-effects
settings into the mixer, computes the per-step sample threshold, and then
renders the frames.  All shared cells (`RwLock`s and atomics) are modelled
as plain fields of one `EngineState`; the callback is single-threaded over
that state.  `try_send` on the state channel is modelled as prepending the
message to `published` (a full channel would drop it; the *value* sent is
what the claims are about). -/

/-- Struct `TrackState` (main.rs lines 41-46). -/
structure TrackState where
  volume : ℝ
  pan : ℝ
  muted : Bool
  soloed : Bool

/-- Struct `MasterEffects` (main.rs lines 53-59). -/
structure MasterEffects where
  eq_low : ℝ
  eq_mid : ℝ
  eq_high : ℝ
  limiter_threshold : ℝ
  clip_amount : ℝ

/-- Constructor `MasterEffects::default` (main.rs lines 61-71). -/
def MasterEffects.default : MasterEffects :=
  { eq_low := 0, eq_mid := 0, eq_high := 0, limiter_threshold := 0.95, clip_amount := 2 }

/-- Struct `AudioCommand` (main.rs lines 21-26); the unused `data` payload is
omitted.  `value : ℝ` models `f64`, `track : ℕ` models `usize`. -/
structure AudioCommand where
  cmd_type : String
  track : Option ℕ
  value : Option ℝ

/-- Struct `AudioState` (main.rs lines 29-34), the message published to the UI. -/
structure AudioStateMsg where
  is_playing : Bool
  current_step : ℕ
  bpm : ℕ
  cpu_usage : ℝ

/-- The state the audio callback reads and writes: the `RwLock`/atomic
cells of main.rs lines 134-171 plus the published messages. -/
structure EngineState where
  track_states : List TrackState
  master_volume : ℝ
  effects : MasterEffects
  bpm : ℕ
  is_running : Bool
  current_step : ℕ
  published : List AudioStateMsg
  phases : List ℝ
  mixer : Mixer

/-- In-place update of entry `t` of the track table (`states[t].field = …`). -/
def modifyTrack : List TrackState → ℕ → (TrackState → TrackState) → List TrackState
  | [], _, _ => []
  | s :: rest, 0, f => f s :: rest
  | s :: rest, t + 1, f => s :: modifyTrack rest t f

/-- One arm of the command-drain `match` (main.rs lines 178-249).  Track
commands with an out-of-range index change nothing; unknown command types
change nothing.  The `v as u64` cast in `set_bpm` is `Nat.floor`. -/
def applyCommand (st : EngineState) (cmd : AudioCommand) : EngineState :=
  if cmd.cmd_type = "set_volume" then
    match cmd.value with
    | some v =>
      { st with
        master_volume := clampR v 0 1
        mixer := { st.mixer with master_volume := clampR v 0 1 } }
    | none => st
  else if cmd.cmd_type = "set_track_volume" then
    match cmd.track, cmd.value with
    | some t, some v =>
      if t < st.track_states.length then
        let ts := modifyTrack st.track_states t (fun s => { s with volume := clampR v 0 1 })
        { st with track_states := ts }
      else st
    | _, _ => st
  else if cmd.cmd_type = "set_track_pan" then
    match cmd.track, cmd.value with
    | some t, some v =>
      if t < st.track_states.length then
        let ts := modifyTrack st.track_states t (fun s => { s with pan := clampR v (-1) 1 })
        { st with track_states := ts }
      else st
    | _, _ => st
  else if cmd.cmd_type = "toggle_mute" then
    match cmd.track with
    | some t =>
      if t < st.track_states.length then
        let ts := modifyTrack st.track_states t (fun s => { s with muted := !s.muted })
        { st with track_states := ts }
      else st
    | none => st
  else if cmd.cmd_type = "toggle_solo" then
    match cmd.track with
    | some t =>
      if t < st.track_states.length then
        let ts := modifyTrack st.track_states t (fun s => { s with soloed := !s.soloed })
        { st with track_states := ts }
      else st
    | none => st
  else if cmd.cmd_type = "set_bpm" then
    match cmd.value with
    | some v => { st with bpm := ⌊v⌋₊ }
    | none => st
  else if cmd.cmd_type = "set_eq_low" then
    match cmd.value with
    | some v => { st with effects := { st.effects with eq_low := v } }
    | none => st
  else if cmd.cmd_type = "set_eq_mid" then
    match cmd.value with
    | some v => { st with effects := { st.effects with eq_mid := v } }
    | none => st
  else if cmd.cmd_type = "set_eq_high" then
    match cmd.value with
    | some v => { st with effects := { st.effects with eq_high := v } }
    | none => st
  else if cmd.cmd_type = "set_limiter" then
    match cmd.value with
    | some v => { st with effects := { st.effects with limiter_threshold := v } }
    | none => st
  else if cmd.cmd_type = "play" then
    { st with is_running := true }
  else if cmd.cmd_type = "stop" then
    { st with is_running := false }
  else st

/-- The mixer-effects push of main.rs lines 252-259. -/
def updateMixerEffects (m : Mixer) (e : MasterEffects) : Mixer :=
  ((m.set_eq e.eq_low e.eq_mid e.eq_high).set_limiter_threshold
    e.limiter_threshold).set_clip_amount e.clip_amount

/-- Quantity `samples_per_step` (main.rs line 263): `sample_rate * 60 / (bpm * 4)`. -/
def samplesPerStep (sample_rate : ℝ) (bpm : ℕ) : ℝ :=
  sample_rate * 60 / ((bpm : ℝ) * 4)

/-- The step-counter update at the end of each frame (main.rs lines
324-335), acting on `(step_phase, current_step, published)`.  `fetch_add`
returns the previous counter value, so the published step is
`(previous + 1) % 32`. -/
def stepFrame (running : Bool) (bpmv : ℕ) (sps : ℝ)
    (s : ℝ × ℕ × List AudioStateMsg) : ℝ × ℕ × List AudioStateMsg :=
  let p := s.1 + 1
  if p ≥ sps then
    (0, s.2.1 + 1,
      { is_playing := running, current_step := (s.2.1 + 1) % 32,
        bpm := bpmv, cpu_usage := 0 } :: s.2.2)
  else (p, s.2.1, s.2.2)

/-- Iterates the step-counter update `n` times. -/
def stepIterN (running : Bool) (bpmv : ℕ) (sps : ℝ) (n : ℕ)
    (s : ℝ × ℕ × List AudioStateMsg) : ℝ × ℕ × List AudioStateMsg :=
  (stepFrame running bpmv sps)^[n] s

/-- The oscillator frequencies of the seven test tracks (main.rs line 284). -/
def oscFreqs : List ℝ := [55, 110, 220, 440, 880, 1760, 3520]

/-- The mix stage of one frame (main.rs lines 277-310): while running, each
of the 7 tracks produces a sine sample from its phase, the phases advance
(wrapping at 1), and the tracks are mixed; while stopped, the pre-master
pair is `(0, 0)` and the phases are untouched. -/
def mixStage (sr : ℝ) (states : List TrackState) (anySoloed : Bool) (m : Mixer)
    (running : Bool) (phases : List ℝ) : (ℝ × ℝ) × List ℝ :=
  if running then
    let trackSamples := (List.range 7).map fun i =>
      let st := states.getD i { volume := 0.7, pan := 0, muted := false, soloed := false }
      (Real.sin (phases.getD i 0 * 2 * Real.pi), st.volume, st.pan, st.muted, st.soloed)
    let phases' := (List.range 7).map fun i =>
      let p := phases.getD i 0 + oscFreqs.getD i 0 / sr
      if p ≥ 1 then p - 1 else p
    (m.mix_channels trackSamples anySoloed, phases')
  else ((0, 0), phases)

/-- One iteration of the frame loop (main.rs lines 276-336): the mix stage,
the master bus, and the step-counter update.  Returns the updated engine
state, the updated `step_phase` accumulator, and the emitted stereo frame;
`none` models a panic inside `process_master`. -/
def renderFrame (sr sps : ℝ) (states : List TrackState) (anySoloed : Bool)
    (phase : ℝ) (st : EngineState) : Option (EngineState × ℝ × (ℝ × ℝ)) :=
  let mixRes := mixStage sr states anySoloed st.mixer st.is_running st.phases
  match st.mixer.process_master mixRes.1.1 mixRes.1.2 with
  | none => none
  | some (out, m') =>
    let s3 := stepFrame st.is_running st.bpm sps (phase, st.current_step, st.published)
    let st' := { st with mixer := m', phases := mixRes.2,
                         current_step := s3.2.1, published := s3.2.2 }
    some (st', s3.1, out)

def frameLoop (sr sps : ℝ) (states : List TrackState) (anySoloed : Bool) :
    ℕ → ℝ → EngineState → Option (EngineState × ℝ × List (ℝ × ℝ))
  | 0, phase, st => some (st, phase, [])
  | n + 1, phase, st =>
    match renderFrame sr sps states anySoloed phase st with
    | none => none
    | some (st', ph', out) =>
      match frameLoop sr sps states anySoloed n ph' st' with
      | none => none
      | some (stF, phF, outs) => some (stF, phF, out :: outs)

/-- One invocation of the audio callback (main.rs lines 175-337) on a
buffer of `nFrames` stereo frames: drain the pending commands, push the
master-effects settings into the mixer, compute `samples_per_step` from the
current bpm, reset the local `step_phase` accumulator to `0`, snapshot the
track states and the solo flag, then render the frames. -/
def audioCallback (sr : ℝ) (cmds : List AudioCommand) (nFrames : ℕ)
    (st : EngineState) : Option (EngineState × ℝ × List (ℝ × ℝ)) :=
  let st1 := cmds.foldl applyCommand st
  let st2 := { st1 with mixer := updateMixerEffects st1.mixer st1.effects }
  let sps := samplesPerStep sr st2.bpm
  let anySoloed := st2.track_states.any (fun s => s.soloed)
  frameLoop sr sps st2.track_states anySoloed nFrames 0 st2

/-- The 7-track roster the audio thread starts with (main.rs lines 137-148). -/
def initialTracks : List TrackState :=
  List.replicate 7 { volume := 0.7, pan := 0, muted := false, soloed := false }

/-- Well-formedness of a limiter state: the buffer has `lookahead + 1`
slots, the write position is strictly below `lookahead`, and the extra slot
at index `lookahead` still holds its initial `0`. -/
def GoodLim (s : Limiter) : Prop :=
  s.buffer.length = s.lookahead + 1 ∧ s.buffer_pos < s.lookahead ∧
    s.buffer.getD s.lookahead 0 = 0

/-- Per-channel contribution to the left mix sum (the closed form of the
`mix_channels` loop body). -/
def contribL (any_soloed : Bool) (c : ℝ × ℝ × ℝ × Bool × Bool) : ℝ :=
  if c.2.2.2.1 || (any_soloed && !c.2.2.2.2) then 0
  else c.1 * c.2.1 * Real.cos ((c.2.2.1 + 1) * Real.pi / 4)

/-- Per-channel contribution to the right mix sum. -/
def contribR (any_soloed : Bool) (c : ℝ × ℝ × ℝ × Bool × Bool) : ℝ :=
  if c.2.2.2.1 || (any_soloed && !c.2.2.2.2) then 0
  else c.1 * c.2.1 * Real.sin ((c.2.2.1 + 1) * Real.pi / 4)

/-! ## Concrete states used as test inputs -/

/-- An `EqBand` whose input history holds `x1 = 1` (as after processing the
sample `1`), with flat coefficients. -/
def cexBand : EqBand :=
  { frequency := 100, gain := 0, q := 0.7, b0 := 1, b1 := 0, b2 := 0,
    a1 := 0, a2 := 0, x1 := 1, x2 := 0, y1 := 0, y2 := 0 }

/-- A band that outputs the previous input sample (`b1 = 1`, all other
coefficients `0`): makes filter-history flow directly observable. -/
def delayBand : EqBand :=
  { frequency := 100, gain := 0, q := 0.7, b0 := 0, b1 := 1, b2 := 0,
    a1 := 0, a2 := 0, x1 := 0, x2 := 0, y1 := 0, y2 := 0 }

/-- A band that passes its input through unchanged (`b0 = 1`, all other
coefficients `0`). -/
def unitBand (f q : ℝ) : EqBand :=
  { frequency := f, gain := 0, q := q, b0 := 1, b1 := 0, b2 := 0,
    a1 := 0, a2 := 0, x1 := 0, x2 := 0, y1 := 0, y2 := 0 }

/-- A well-formed limiter state with `lookahead = 1` (as built by
`Limiter::new` at a 200 Hz sample rate). -/
def limC4 : Limiter :=
  { threshold := 0.95, release := 0.1, lookahead := 1, buffer := [0, 0],
    buffer_pos := 0, envelope := 0, sample_rate := 200 }

/-- A mixer state with transparent bands except for the shared-history
probe `delayBand` in the low slot. -/
def mixerC4 : Mixer :=
  { eq_low := delayBand, eq_mid := unitBand 1000 1, eq_high := unitBand 8000 0.7,
    limiter := limC4, clipper := { threshold := 0.8, amount := 2 },
    master_volume := 1, sample_rate := 200 }

/-- The right-channel output of `process_master` on `mixerC4` as a function
of the left-channel input, with the right-channel input fixed at `0`. -/
def c4RightOut (l : ℝ) : Option ℝ :=
  (mixerC4.process_master l 0).map fun r => r.1.2

/-- A stopped engine state: transport flag `false`, bpm 720000 (so that
`samples_per_step = 1` at a 48 kHz device rate), step counter `0`. -/
def engineStopped : EngineState :=
  { track_states := initialTracks, master_volume := 0.8,
    effects := MasterEffects.default, bpm := 720000, is_running := false,
    current_step := 0, published := [], phases := List.replicate 7 0,
    mixer := Mixer.new 200 }

/-- A running engine state at bpm 120 with step counter `0`. -/
def engineRunning : EngineState :=
  { track_states := initialTracks, master_volume := 0.8,
    effects := MasterEffects.default, bpm := 120, is_running := true,
    current_step := 0, published := [], phases := List.replicate 7 0,
    mixer := Mixer.new 200 }

/-! ## Theorems -/

/-- C1 (amended): `EqBand::update` recomputes the whole band as
`EqBand::new` with the stored frequency and Q and the new gain — in
particular it resets the history fields `x1`, `x2`, `y1`, `y2` to zero
rather than preserving them. -/
theorem eqband_update_recomputes_and_resets_history :
    ∀ (b : EqBand) (g sr : ℝ),
      b.update g sr = EqBand.new b.frequency g b.q sr ∧
      (b.update g sr).x1 = 0 ∧ (b.update g sr).x2 = 0 ∧
      (b.update g sr).y1 = 0 ∧ (b.update g sr).y2 = 0 := by
  intro b g sr
  exact ⟨rfl, rfl, rfl, rfl, rfl⟩

/-- C1 counterexample: on a band whose history holds `x1 = 1`, calling
`update` does *not* leave the history unchanged — `x1` becomes `0`. -/
theorem eqband_update_clears_x1 :
    (cexBand.update 3 48000).x1 ≠ cexBand.x1 := by
  have h1 : (cexBand.update 3 48000).x1 = 0 := rfl
  have h2 : cexBand.x1 = 1 := rfl
  rw [h1, h2]
  norm_num

/-- C7 counterexample: with threshold `2` (above unit), the input `3/2`
passes through the identity branch, so the output magnitude exceeds `1`:
the unconditional unit-magnitude bound of the claim is false. -/
theorem softclipper_output_can_exceed_one :
    ¬ |SoftClipper.process { threshold := 2, amount := 2 } (3 / 2)| ≤ 1 := by
  have habs : |(3 / 2 : ℝ)| = 3 / 2 := abs_of_nonneg (by norm_num)
  have h : SoftClipper.process { threshold := 2, amount := 2 } (3 / 2) = 3 / 2 := by
    simp only [SoftClipper.process]
    rw [if_pos (by rw [habs]; norm_num)]
  rw [h, habs]
  norm_num

/-- C7 (amended): for every clipper and input, the below-threshold identity
holds; and the unit-magnitude bound `|output| ≤ 1` holds whenever
`0 ≤ threshold ≤ 1` and `amount ≥ 0` (as for the mixer's master clipper:
threshold `0.8`, amount clamped to `[0, 10]`).  For a threshold above `1`
the identity branch already violates the bound. -/
theorem softclipper_identity_and_bounded :
    ∀ (c : SoftClipper) (x : ℝ),
      (|x| < c.threshold → c.process x = x) ∧
      (0 ≤ c.threshold → c.threshold ≤ 1 → 0 ≤ c.amount → |c.process x| ≤ 1) := by
  intro c x
  constructor
  · intro h
    simp only [SoftClipper.process]
    rw [if_pos h]
  · intro h0 h1 h2
    by_cases habs : |x| < c.threshold
    · have hx : c.process x = x := by
        simp only [SoftClipper.process]
        rw [if_pos habs]
      rw [hx]
      exact habs.le.trans h1
    · have hge : c.threshold ≤ |x| := not_lt.mp habs
      have hx : c.process x =
          rsignum x * min (c.threshold + (|x| - c.threshold) /
            (1 + (|x| - c.threshold) * c.amount)) 1 := by
        simp only [SoftClipper.process]
        rw [if_neg habs]
      have he0 : 0 ≤ |x| - c.threshold := sub_nonneg.mpr hge
      have hd0 : (0 : ℝ) < 1 + (|x| - c.threshold) * c.amount :=
        lt_of_lt_of_le one_pos (le_add_of_nonneg_right (mul_nonneg he0 h2))
      have hq : 0 ≤ (|x| - c.threshold) / (1 + (|x| - c.threshold) * c.amount) :=
        div_nonneg he0 hd0.le
      have hmin0 : 0 ≤ min (c.threshold + (|x| - c.threshold) /
          (1 + (|x| - c.threshold) * c.amount)) 1 :=
        le_min (add_nonneg h0 hq) zero_le_one
      have hsign : |rsignum x| = 1 := by
        unfold rsignum
        split <;> norm_num
      rw [hx, abs_mul, hsign, one_mul, abs_of_nonneg hmin0]
      exact min_le_right _ _

/-- C7 witness: the theorem applied to the mixer's master clipper
(threshold `0.8`, amount `2`) at the concrete input `5`. -/
theorem softclipper_bounded_witness :
    |SoftClipper.process { threshold := 0.8, amount := 2 } 5| ≤ 1 :=
  (softclipper_identity_and_bounded { threshold := 0.8, amount := 2 } 5).2
    (by norm_num) (by norm_num) (by norm_num)

/-- Closed form of the `mix_channels` fold from an arbitrary accumulator. -/
theorem mixChannelStep_foldl (any : Bool) :
    ∀ (chs : List (ℝ × ℝ × ℝ × Bool × Bool)) (a b : ℝ),
      chs.foldl (mixChannelStep any) (a, b) =
        (a + (chs.map (contribL any)).sum, b + (chs.map (contribR any)).sum) := by
  intro chs
  induction chs with
  | nil => intro a b; simp
  | cons c rest ih =>
    intro a b
    obtain ⟨s, v, p, mu, so⟩ := c
    by_cases h : (mu || (any && !so)) = true
    · rw [List.foldl_cons]
      have hstep : mixChannelStep any (a, b) (s, v, p, mu, so) = (a, b) := by
        simp only [mixChannelStep]
        rw [if_pos h]
      rw [hstep, ih a b]
      simp [contribL, contribR, h]
    · rw [List.foldl_cons]
      have hstep : mixChannelStep any (a, b) (s, v, p, mu, so) =
          (a + s * v * Real.cos ((p + 1) * Real.pi / 4),
           b + s * v * Real.sin ((p + 1) * Real.pi / 4)) := by
        simp only [mixChannelStep]
        rw [if_neg h]
      rw [hstep, ih]
      simp only [List.map_cons, List.sum_cons, contribL, contribR]
      rw [if_neg h, if_neg h]
      rw [Prod.mk.injEq]
      constructor <;> ring

/-- C6 (confirmed): `mix_channels` returns, on each side, the sum over the
channel list of the per-channel contributions: zero for a muted track and
for a non-soloed track while any track is soloed, and otherwise
`sample * volume` scaled by `cos`/`sin` of `(pan + 1)·π/4`. -/
theorem mix_channels_closed_form :
    ∀ (m : Mixer) (chs : List (ℝ × ℝ × ℝ × Bool × Bool)) (any : Bool),
      m.mix_channels chs any =
        ((chs.map (contribL any)).sum, (chs.map (contribR any)).sum) := by
  intro m chs any
  unfold Mixer.mix_channels
  rw [mixChannelStep_foldl any chs 0 0]
  simp

/-- One well-formed `Limiter::process` call: it succeeds (no panic), keeps
the write position strictly below `lookahead`, preserves the buffer length
and never touches the slot at index `lookahead`. -/
theorem Limiter.process_good (s : Limiter) (x : ℝ) (hL : 1 ≤ s.lookahead)
    (h : GoodLim s) :
    ∃ y s', s.process x = some (y, s') ∧ GoodLim s' ∧ s'.lookahead = s.lookahead := by
  obtain ⟨hlen, hpos, hslot⟩ := h
  have hposlen : s.buffer_pos < s.buffer.length := by omega
  have hL0 : s.lookahead ≠ 0 := by omega
  have hd : (s.buffer_pos + 1) % s.lookahead < s.lookahead := Nat.mod_lt _ (by omega)
  have hdlen : (s.buffer_pos + 1) % s.lookahead < (s.buffer.set s.buffer_pos x).length := by
    rw [List.length_set, hlen]
    omega
  simp only [Limiter.process]
  rw [if_pos hposlen, if_neg hL0, if_pos hdlen]
  refine ⟨_, _, rfl, ⟨?_, ?_, ?_⟩, rfl⟩
  · simpa using hlen
  · simpa using hd
  · have hne : s.buffer_pos ≠ s.lookahead := by omega
    have hget : (s.buffer.set s.buffer_pos x)[s.lookahead]? = s.buffer[s.lookahead]? :=
      List.getElem?_set_ne hne
    simpa [List.getD, hget] using hslot

/-- A whole run of well-formed `Limiter::process` calls succeeds and ends
in a well-formed state with the same `lookahead`. -/
theorem Limiter.run_good (xs : List ℝ) :
    ∀ (s : Limiter), 1 ≤ s.lookahead → GoodLim s →
      ∃ ys sF, s.run xs = some (ys, sF) ∧ GoodLim sF ∧ sF.lookahead = s.lookahead := by
  induction xs with
  | nil =>
    intro s hL h
    exact ⟨[], s, rfl, h, rfl⟩
  | cons x rest ih =>
    intro s hL h
    obtain ⟨y, s', hstep, h', hLeq⟩ := Limiter.process_good s x hL h
    obtain ⟨ys, sF, hrun, hF, hFL⟩ := ih s' (hLeq ▸ hL) h'
    refine ⟨y :: ys, sF, ?_, hF, by omega⟩
    simp only [Limiter.run, hstep, hrun]

/-- Construction: `Limiter::new` produces a well-formed state whenever the computed
lookahead is at least one sample. -/
theorem goodLim_new (sr t r : ℝ) (h : 1 ≤ (⌊sr * 0.005⌋₊ : ℕ)) :
    GoodLim (Limiter.new sr t r) := by
  refine ⟨by simp [Limiter.new], ?_, ?_⟩
  · simp only [Limiter.new]
    omega
  · show (List.replicate (⌊sr * 0.005⌋₊ + 1) (0 : ℝ)).getD ⌊sr * 0.005⌋₊ 0 = 0
    simp [List.getD, List.getElem?_replicate]

/-- C10 (confirmed): when `sample_rate × 0.005 ≥ 1` the computed lookahead
is at least `1`, every `Limiter::process` call in a run from `Limiter::new`
succeeds with all buffer indices strictly below `lookahead` (the buffer has
`lookahead + 1` slots and the slot at index `lookahead` still holds its
initial `0` after any run, i.e. it is never written); when
`sample_rate × 0.005 < 1` the lookahead is `0` and the very first
`process` call panics on the remainder by zero (modelled as `none`). -/
theorem limiter_index_safety :
    (∀ (sr t r : ℝ), (1 : ℝ) ≤ sr * 0.005 → ∀ (xs : List ℝ),
      ∃ ys sF, (Limiter.new sr t r).run xs = some (ys, sF) ∧
        sF.buffer_pos < sF.lookahead ∧ sF.buffer.length = sF.lookahead + 1 ∧
        sF.buffer.getD sF.lookahead 0 = 0) ∧
    (∀ (sr t r : ℝ), sr * 0.005 < 1 →
      (Limiter.new sr t r).lookahead = 0 ∧
      ∀ (x : ℝ), (Limiter.new sr t r).process x = none) := by
  constructor
  · intro sr t r h xs
    have hcast : ((1 : ℕ) : ℝ) ≤ sr * 0.005 := by exact_mod_cast h
    have hL : 1 ≤ (Limiter.new sr t r).lookahead := by
      simpa [Limiter.new] using Nat.le_floor hcast
    obtain ⟨ys, sF, hrun, ⟨h1, h2, h3⟩, _⟩ :=
      Limiter.run_good xs (Limiter.new sr t r) hL
        (goodLim_new sr t r (by simpa [Limiter.new] using hL))
    exact ⟨ys, sF, hrun, h2, h1, h3⟩
  · intro sr t r h
    have hL : (Limiter.new sr t r).lookahead = 0 := by
      simp [Limiter.new, Nat.floor_eq_zero.mpr h]
    refine ⟨hL, fun x => ?_⟩
    simp only [Limiter.process]
    rw [if_pos (by simp [Limiter.new, hL]), if_pos hL]

/-- C10 witness: at sample rate `400` (lookahead `2`) a two-sample run
succeeds; at sample rate `100` (lookahead `0`) `process` panics. -/
theorem limiter_index_safety_witness :
    (∃ ys sF, (Limiter.new 400 0.5 0.1).run [1, 2] = some (ys, sF) ∧
      sF.buffer_pos < sF.lookahead ∧ sF.buffer.length = sF.lookahead + 1 ∧
      sF.buffer.getD sF.lookahead 0 = 0) ∧
    ((Limiter.new 100 0.5 0.1).lookahead = 0 ∧
      ∀ (x : ℝ), (Limiter.new 100 0.5 0.1).process x = none) :=
  ⟨limiter_index_safety.1 400 0.5 0.1 (by norm_num) [1, 2],
   limiter_index_safety.2 100 0.5 0.1 (by norm_num)⟩

/-- Evaluation of one `Limiter::process` call whose envelope takes the
attack branch and whose gain stays at `1`. -/
theorem Limiter.process_attack_eval (s : Limiter) (x env' : ℝ) (d : ℕ)
    (hpos : s.buffer_pos < s.buffer.length)
    (hatk : |x| > s.envelope)
    (henv : 0.9999 * s.envelope + (1 - 0.9999) * |x| = env')
    (hng : ¬ env' > s.threshold)
    (hL : s.lookahead ≠ 0)
    (hd : (s.buffer_pos + 1) % s.lookahead = d)
    (hdlen : d < (s.buffer.set s.buffer_pos x).length) :
    s.process x = some ((s.buffer.set s.buffer_pos x).getD d 0,
      { s with buffer := s.buffer.set s.buffer_pos x, buffer_pos := d,
               envelope := env' }) := by
  simp only [Limiter.process]
  rw [if_pos hpos, if_neg hL, hd, if_pos hdlen, if_pos hatk, henv, if_neg hng, mul_one]

/-- Evaluation of one `Limiter::process` call whose envelope takes the
release branch with a zero result and whose gain stays at `1` (the case of
a silent input on a rested envelope). -/
theorem Limiter.process_release_eval (s : Limiter) (x env' : ℝ) (d : ℕ)
    (hpos : s.buffer_pos < s.buffer.length)
    (hrel : ¬ |x| > s.envelope)
    (henv : Real.exp (-1 / (s.release * s.sample_rate)) * s.envelope +
      (1 - Real.exp (-1 / (s.release * s.sample_rate))) * |x| = env')
    (hng : ¬ env' > s.threshold)
    (hL : s.lookahead ≠ 0)
    (hd : (s.buffer_pos + 1) % s.lookahead = d)
    (hdlen : d < (s.buffer.set s.buffer_pos x).length) :
    s.process x = some ((s.buffer.set s.buffer_pos x).getD d 0,
      { s with buffer := s.buffer.set s.buffer_pos x, buffer_pos := d,
               envelope := env' }) := by
  simp only [Limiter.process]
  rw [if_pos hpos, if_neg hL, hd, if_pos hdlen, if_neg hrel, henv, if_neg hng, mul_one]

/-- C2 evaluation (code bug): running the limiter built at sample rate 400
(`lookahead = 2`) over the inputs `0.1, 0.2, 0.3` — small enough that the
gain factor stays at `1` — outputs `0, 0.1, 0.2`.  The third call returns
the sample written one call (`lookahead − 1`) earlier, not the sample
written `lookahead` calls earlier (which would give `0, 0, 0.1`): the code
indexes the delay line modulo `lookahead` instead of modulo the buffer
length `lookahead + 1`. -/
theorem limiter_run_delay_observed :
    ((Limiter.new 400 2 0.1).run [0.1, 0.2, 0.3]).map (fun r => r.1) =
      some [0, 0.1, 0.2] := by
  have hfloor : ⌊(400 : ℝ) * 0.005⌋₊ = 2 := by norm_num
  have hnew : Limiter.new 400 2 0.1 =
      { threshold := 2, release := 0.1, lookahead := 2, buffer := [0, 0, 0],
        buffer_pos := 0, envelope := 0, sample_rate := 400 } := by
    simp [Limiter.new, hfloor, List.replicate]
  have habs1 : |(0.1 : ℝ)| = 0.1 := abs_of_nonneg (by norm_num)
  have habs2 : |(0.2 : ℝ)| = 0.2 := abs_of_nonneg (by norm_num)
  have habs3 : |(0.3 : ℝ)| = 0.3 := abs_of_nonneg (by norm_num)
  have h1 : Limiter.process
      { threshold := 2, release := 0.1, lookahead := 2, buffer := [0, 0, 0],
        buffer_pos := 0, envelope := 0, sample_rate := 400 } 0.1 =
      some (0,
        { threshold := 2, release := 0.1, lookahead := 2, buffer := [0.1, 0, 0],
          buffer_pos := 1, envelope := 1 / 100000, sample_rate := 400 }) := by
    have e := Limiter.process_attack_eval
      { threshold := 2, release := 0.1, lookahead := 2, buffer := [0, 0, 0],
        buffer_pos := 0, envelope := 0, sample_rate := 400 }
      0.1 (1 / 100000) 1 (by norm_num) (by rw [habs1]; norm_num)
      (by rw [habs1]; norm_num) (by norm_num) (by norm_num) (by norm_num)
      (by norm_num)
    simpa using e
  have h2 : Limiter.process
      { threshold := 2, release := 0.1, lookahead := 2, buffer := [0.1, 0, 0],
        buffer_pos := 1, envelope := 1 / 100000, sample_rate := 400 } 0.2 =
      some (0.1,
        { threshold := 2, release := 0.1, lookahead := 2, buffer := [0.1, 0.2, 0],
          buffer_pos := 0, envelope := 29999 / 1000000000, sample_rate := 400 }) := by
    have e := Limiter.process_attack_eval
      { threshold := 2, release := 0.1, lookahead := 2, buffer := [0.1, 0, 0],
        buffer_pos := 1, envelope := 1 / 100000, sample_rate := 400 }
      0.2 (29999 / 1000000000) 0 (by norm_num) (by rw [habs2]; norm_num)
      (by rw [habs2]; norm_num) (by norm_num) (by norm_num) (by norm_num)
      (by norm_num)
    simpa using e
  have h3 : Limiter.process
      { threshold := 2, release := 0.1, lookahead := 2, buffer := [0.1, 0.2, 0],
        buffer_pos := 0, envelope := 29999 / 1000000000, sample_rate := 400 } 0.3 =
      some (0.2,
        { threshold := 2, release := 0.1, lookahead := 2, buffer := [0.3, 0.2, 0],
          buffer_pos := 1, envelope := 599960001 / 10000000000000, sample_rate := 400 }) := by
    have e := Limiter.process_attack_eval
      { threshold := 2, release := 0.1, lookahead := 2, buffer := [0.1, 0.2, 0],
        buffer_pos := 0, envelope := 29999 / 1000000000, sample_rate := 400 }
      0.3 (599960001 / 10000000000000) 1 (by norm_num) (by rw [habs3]; norm_num)
      (by rw [habs3]; norm_num) (by norm_num) (by norm_num) (by norm_num)
      (by norm_num)
    simpa using e
  rw [hnew]
  simp only [Limiter.run, h1, h2, h3]
  rfl

/-- C4 evaluation (code bug): in `process_master` the right channel is
filtered through the *same* `EqBand` values that the left pass just
updated, so the left input leaks into the right output.  On `mixerC4`
(low band `delayBand`, other bands transparent, limiter with one-sample
lookahead, unit master volume), with the right input fixed at `0`, the
right output is `0` when the left input is `0` but `33/35` when the left
input is `1` — two runs agreeing on the right input and all prior state
yet differing in the right output. -/
theorem process_master_right_depends_on_left :
    c4RightOut 0 = some 0 ∧ c4RightOut 1 = some (33 / 35) ∧
      c4RightOut 0 ≠ c4RightOut 1 := by
  have h0 : limC4.process 0 = some (0, limC4) := by
    have e := Limiter.process_release_eval limC4 0 0 0
      (by norm_num [limC4]) (by norm_num [limC4])
      (by simp [limC4]) (by norm_num [limC4]) (by norm_num [limC4])
      (by norm_num [limC4]) (by norm_num [limC4])
    simpa [limC4] using e
  have h1 : limC4.process 1 = some (1,
      { threshold := 0.95, release := 0.1, lookahead := 1, buffer := [1, 0],
        buffer_pos := 0, envelope := 1 / 10000, sample_rate := 200 }) := by
    have e := Limiter.process_attack_eval limC4 1 (1 / 10000) 0
      (by norm_num [limC4]) (by norm_num [limC4])
      (by norm_num [limC4]) (by norm_num [limC4]) (by norm_num [limC4])
      (by norm_num [limC4]) (by norm_num [limC4])
    simpa [limC4] using e
  have hA : c4RightOut 0 = some 0 := by
    norm_num [c4RightOut, Mixer.process_master, eqChain, mixerC4, EqBand.process,
      delayBand, unitBand, h0, SoftClipper.process, rsignum]
  have hB : c4RightOut 1 = some (33 / 35) := by
    norm_num [c4RightOut, Mixer.process_master, eqChain, mixerC4, EqBand.process,
      delayBand, unitBand, h0, h1, SoftClipper.process, rsignum, min_def]
  refine ⟨hA, hB, ?_⟩
  rw [hA, hB]
  intro hcontra
  have : (0 : ℝ) = 33 / 35 := Option.some.inj hcontra
  norm_num at this

/-- C9 (confirmed): applying the EQ-gain update twice with the same
arguments yields exactly the same state as applying it once, both for a
single `EqBand::update` and for `Mixer::set_eq`. -/
theorem set_eq_idempotent :
    (∀ (b : EqBand) (g sr : ℝ), (b.update g sr).update g sr = b.update g sr) ∧
    (∀ (m : Mixer) (l mi h : ℝ), (m.set_eq l mi h).set_eq l mi h = m.set_eq l mi h) := by
  constructor
  · intro b g sr
    rfl
  · intro m l mi h
    rfl

/-- As long as the accumulator stays below the threshold, `n` step updates
just add `n` to the phase and leave the counter and messages alone. -/
theorem stepIterN_no_trigger (b : Bool) (v : ℕ) (s : ℝ) :
    ∀ (n : ℕ) (phase : ℝ) (c : ℕ) (pubs : List AudioStateMsg),
      phase + n < s →
      stepIterN b v s n (phase, c, pubs) = (phase + n, c, pubs) := by
  intro n
  induction n with
  | zero =>
    intro phase c pubs h
    simp [stepIterN]
  | succ n ih =>
    intro phase c pubs h
    have hn0 : (0 : ℝ) ≤ (n : ℝ) := Nat.cast_nonneg n
    have hcast : ((n + 1 : ℕ) : ℝ) = (n : ℝ) + 1 := by push_cast; ring
    rw [hcast] at h
    have hlt : phase + 1 + (n : ℝ) < s := by linarith
    have hng : ¬ phase + 1 ≥ s := by
      push_neg
      linarith
    have hstep : stepFrame b v s (phase, c, pubs) = (phase + 1, c, pubs) := by
      simp only [stepFrame]
      rw [if_neg hng]
    have hunfold : stepIterN b v s (n + 1) (phase, c, pubs) =
        stepIterN b v s n (stepFrame b v s (phase, c, pubs)) := by
      simp only [stepIterN, Function.iterate_succ_apply]
    rw [hunfold, hstep, ih (phase + 1) c pubs hlt, hcast]
    rw [show phase + 1 + (n : ℝ) = phase + ((n : ℝ) + 1) from by ring]

/-- When the threshold lies in `(n, n+1]`, the `(n+1)`-st step update from
phase `0` fires: the phase resets to `0`, the counter advances by one and
the message `(counter+1) % 32` is published. -/
theorem stepIterN_trigger (b : Bool) (v : ℕ) (s : ℝ) (n : ℕ) (c : ℕ)
    (pubs : List AudioStateMsg) (hlo : (n : ℝ) < s) (hhi : s ≤ (n : ℝ) + 1) :
    stepIterN b v s (n + 1) (0, c, pubs) =
      (0, c + 1,
        { is_playing := b, current_step := (c + 1) % 32, bpm := v, cpu_usage := 0 } :: pubs) := by
  have hinner : stepIterN b v s n (0, c, pubs) = ((0 : ℝ) + n, c, pubs) :=
    stepIterN_no_trigger b v s n 0 c pubs (by simpa using hlo)
  have hunfold : stepIterN b v s (n + 1) (0, c, pubs) =
      stepFrame b v s (stepIterN b v s n (0, c, pubs)) := by
    simp only [stepIterN, Function.iterate_succ_apply']
  rw [hunfold, hinner]
  simp only [stepFrame]
  rw [if_pos (by simpa using hhi)]

/-- The phase and counter components of the step update do not depend on
the running flag (only the published message records it). -/
theorem stepIterN_running_independent (v : ℕ) (s : ℝ) :
    ∀ (n : ℕ) (b b' : Bool) (x : ℝ × ℕ × List AudioStateMsg),
      ((stepIterN b v s n x).1, (stepIterN b v s n x).2.1) =
        ((stepIterN b' v s n x).1, (stepIterN b' v s n x).2.1) := by
  have key : ∀ (n : ℕ) (b b' : Bool) (x y : ℝ × ℕ × List AudioStateMsg),
      x.1 = y.1 → x.2.1 = y.2.1 →
      ((stepIterN b v s n x).1, (stepIterN b v s n x).2.1) =
        ((stepIterN b' v s n y).1, (stepIterN b' v s n y).2.1) := by
    intro n
    induction n with
    | zero =>
      intro b b' x y h1 h2
      simp [stepIterN, h1, h2]
    | succ n ih =>
      intro b b' x y h1 h2
      have hu1 : stepIterN b v s (n + 1) x = stepIterN b v s n (stepFrame b v s x) := by
        simp only [stepIterN, Function.iterate_succ_apply]
      have hu2 : stepIterN b' v s (n + 1) y = stepIterN b' v s n (stepFrame b' v s y) := by
        simp only [stepIterN, Function.iterate_succ_apply]
      rw [hu1, hu2]
      apply ih
      · simp only [stepFrame, h1, h2]
        split <;> rfl
      · simp only [stepFrame, h1, h2]
        split <;> rfl
  intro n b b' x
  exact key n b b' x x rfl rfl

/-- Success: `process_master` with a well-formed limiter succeeds and preserves the
limiter's well-formedness and lookahead. -/
theorem Mixer.process_master_good (m : Mixer) (l r : ℝ)
    (hL : 1 ≤ m.limiter.lookahead) (h : GoodLim m.limiter) :
    ∃ out m', m.process_master l r = some (out, m') ∧ GoodLim m'.limiter ∧
      m'.limiter.lookahead = m.limiter.lookahead := by
  obtain ⟨y1, s1, h1, g1, e1⟩ :=
    Limiter.process_good m.limiter ((eqChain m l r).1.1 * m.master_volume) hL h
  obtain ⟨y2, s2, h2, g2, e2⟩ :=
    Limiter.process_good s1 ((eqChain m l r).1.2 * m.master_volume) (by omega) g1
  cases hres : m.process_master l r with
  | none =>
    exfalso
    simp [Mixer.process_master, h1, h2] at hres
  | some p =>
    obtain ⟨out, m'⟩ := p
    simp only [Mixer.process_master, h1, h2, Option.some.injEq, Prod.mk.injEq] at hres
    obtain ⟨hout, hm⟩ := hres
    refine ⟨out, m', rfl, ?_, ?_⟩
    · rw [← hm]
      exact g2
    · rw [← hm]
      have hs2 : s2.lookahead = m.limiter.lookahead := by omega
      exact hs2

/-- A successful `renderFrame` updates the step components exactly by
`stepFrame` and leaves the running flag and bpm untouched. -/
theorem renderFrame_proj (sr sps : ℝ) (states : List TrackState) (any : Bool)
    (phase : ℝ) (st st' : EngineState) (ph' : ℝ) (out : ℝ × ℝ)
    (h : renderFrame sr sps states any phase st = some (st', ph', out)) :
    (ph', st'.current_step, st'.published) =
      stepFrame st.is_running st.bpm sps (phase, st.current_step, st.published) ∧
    st'.is_running = st.is_running ∧ st'.bpm = st.bpm := by
  simp only [renderFrame] at h
  cases hpm : st.mixer.process_master
      (mixStage sr states any st.mixer st.is_running st.phases).1.1
      (mixStage sr states any st.mixer st.is_running st.phases).1.2 with
  | none =>
    rw [hpm] at h
    simp at h
  | some p =>
    obtain ⟨o, m'⟩ := p
    rw [hpm] at h
    simp only [Option.some.injEq, Prod.mk.injEq] at h
    obtain ⟨h1, h2, h3⟩ := h
    subst h1
    subst h2
    exact ⟨rfl, rfl, rfl⟩

/-- A `renderFrame` on a state with a well-formed limiter succeeds and
preserves the limiter's well-formedness and lookahead. -/
theorem renderFrame_some (sr sps : ℝ) (states : List TrackState) (any : Bool)
    (phase : ℝ) (st : EngineState)
    (hL : 1 ≤ st.mixer.limiter.lookahead) (h : GoodLim st.mixer.limiter) :
    ∃ st' ph' out, renderFrame sr sps states any phase st = some (st', ph', out) ∧
      GoodLim st'.mixer.limiter ∧
      st'.mixer.limiter.lookahead = st.mixer.limiter.lookahead := by
  obtain ⟨o, m', hpm, g', e'⟩ := Mixer.process_master_good st.mixer
    (mixStage sr states any st.mixer st.is_running st.phases).1.1
    (mixStage sr states any st.mixer st.is_running st.phases).1.2 hL h
  cases hres : renderFrame sr sps states any phase st with
  | none =>
    exfalso
    simp [renderFrame, hpm] at hres
  | some r =>
    obtain ⟨st', ph', out⟩ := r
    simp only [renderFrame, hpm, Option.some.injEq, Prod.mk.injEq] at hres
    obtain ⟨h1, h2, h3⟩ := hres
    refine ⟨st', ph', out, rfl, ?_, ?_⟩
    · rw [← h1]
      exact g'
    · rw [← h1]
      exact e'

/-- A successful frame loop updates the step components exactly by `n`
step updates and leaves the running flag and bpm untouched. -/
theorem frameLoop_proj (sr sps : ℝ) (states : List TrackState) (any : Bool) :
    ∀ (n : ℕ) (phase : ℝ) (st stF : EngineState) (phF : ℝ) (outs : List (ℝ × ℝ)),
      frameLoop sr sps states any n phase st = some (stF, phF, outs) →
      (phF, stF.current_step, stF.published) =
        stepIterN st.is_running st.bpm sps n (phase, st.current_step, st.published) ∧
      stF.is_running = st.is_running ∧ stF.bpm = st.bpm := by
  intro n
  induction n with
  | zero =>
    intro phase st stF phF outs h
    simp only [frameLoop, Option.some.injEq, Prod.mk.injEq] at h
    obtain ⟨h1, h2, h3⟩ := h
    subst h1
    subst h2
    simp [stepIterN]
  | succ n ih =>
    intro phase st stF phF outs h
    simp only [frameLoop] at h
    cases hrf : renderFrame sr sps states any phase st with
    | none =>
      rw [hrf] at h
      simp at h
    | some r =>
      obtain ⟨st', ph', out⟩ := r
      rw [hrf] at h
      simp only at h
      cases hloop : frameLoop sr sps states any n ph' st' with
      | none =>
        rw [hloop] at h
        simp at h
      | some r2 =>
        obtain ⟨stF', phF', outs'⟩ := r2
        rw [hloop] at h
        simp only [Option.some.injEq, Prod.mk.injEq] at h
        obtain ⟨hEq1, hEq2, hEq3⟩ := h
        obtain ⟨hstep, hr', hb'⟩ := renderFrame_proj sr sps states any phase st st' ph' out hrf
        obtain ⟨hproj, hrun, hbpm⟩ := ih ph' st' stF' phF' outs' hloop
        refine ⟨?_, ?_, ?_⟩
        · rw [← hEq1, ← hEq2, hproj, hr', hb', hstep]
          simp only [stepIterN, Function.iterate_succ_apply]
        · rw [← hEq1, hrun, hr']
        · rw [← hEq1, hbpm, hb']

/-- A frame loop started on a state with a well-formed limiter never
panics. -/
theorem frameLoop_some (sr sps : ℝ) (states : List TrackState) (any : Bool) :
    ∀ (n : ℕ) (phase : ℝ) (st : EngineState),
      1 ≤ st.mixer.limiter.lookahead → GoodLim st.mixer.limiter →
      ∃ stF phF outs, frameLoop sr sps states any n phase st = some (stF, phF, outs) := by
  intro n
  induction n with
  | zero =>
    intro phase st hL h
    exact ⟨st, phase, [], rfl⟩
  | succ n ih =>
    intro phase st hL h
    obtain ⟨st', ph', out, hrf, g', e'⟩ := renderFrame_some sr sps states any phase st hL h
    obtain ⟨stF, phF, outs, hloop⟩ := ih ph' st' (by omega) g'
    refine ⟨stF, phF, out :: outs, ?_⟩
    simp only [frameLoop, hrf]
    simp only at *
    rw [hloop]

/-- The effects push of the callback only touches the limiter's threshold
field. -/
theorem updateMixerEffects_limiter (m : Mixer) (e : MasterEffects) :
    (updateMixerEffects m e).limiter =
      { m.limiter with threshold := clampR e.limiter_threshold 0 1 } := rfl

/-- Changing a limiter's threshold preserves its well-formedness. -/
theorem goodLim_threshold (s : Limiter) (t : ℝ) (h : GoodLim s) :
    GoodLim { s with threshold := t } := h

/-- C3 (amended): while Stopped the mix stage produces the silent pair
`(0, 0)` and leaves the oscillator phases untouched, but the step-timing
accumulator and the step counter advance on every frame exactly as while
Running: a successful frame loop updates them by `stepIterN` irrespective
of the running flag, and the phase/counter components of `stepIterN` do
not depend on that flag.  (The claim that nothing advances while Stopped
is refuted by the counterexample.) -/
theorem stopped_callback_behavior :
    (∀ (sr : ℝ) (states : List TrackState) (any : Bool) (m : Mixer)
        (phases : List ℝ),
      mixStage sr states any m false phases = ((0, 0), phases)) ∧
    (∀ (sr sps : ℝ) (states : List TrackState) (any : Bool) (n : ℕ) (phase : ℝ)
        (st stF : EngineState) (phF : ℝ) (outs : List (ℝ × ℝ)),
      frameLoop sr sps states any n phase st = some (stF, phF, outs) →
      (phF, stF.current_step, stF.published) =
        stepIterN st.is_running st.bpm sps n (phase, st.current_step, st.published)) ∧
    (∀ (b b' : Bool) (v : ℕ) (s : ℝ) (n : ℕ) (x : ℝ × ℕ × List AudioStateMsg),
      ((stepIterN b v s n x).1, (stepIterN b v s n x).2.1) =
        ((stepIterN b' v s n x).1, (stepIterN b' v s n x).2.1)) := by
  refine ⟨?_, ?_, ?_⟩
  · intro sr states any m phases
    simp [mixStage]
  · intro sr sps states any n phase st stF phF outs h
    exact (frameLoop_proj sr sps states any n phase st stF phF outs h).1
  · intro b b' v s n x
    exact stepIterN_running_independent v s n b b' x

/-- C3 witness: the silent mix stage on a concrete stopped configuration;
the step projection applied to the trivial zero-frame loop; the
flag-independence of the step dynamics at a concrete input. -/
theorem stopped_callback_behavior_witness :
    (mixStage 48000 [] false (Mixer.new 200) false [] = ((0, 0), [])) ∧
    (((0 : ℝ), engineStopped.current_step, engineStopped.published) =
      stepIterN engineStopped.is_running engineStopped.bpm 1 0
        (0, engineStopped.current_step, engineStopped.published)) ∧
    ((stepIterN true 120 6000 3 (0, 0, [])).1,
      (stepIterN true 120 6000 3 (0, 0, [])).2.1) =
      ((stepIterN false 120 6000 3 (0, 0, [])).1,
        (stepIterN false 120 6000 3 (0, 0, [])).2.1) :=
  ⟨stopped_callback_behavior.1 48000 [] false (Mixer.new 200) [],
   stopped_callback_behavior.2.1 48000 1 engineStopped.track_states false 0 0
     engineStopped engineStopped 0 [] rfl,
   stopped_callback_behavior.2.2 true false 120 6000 3 (0, 0, [])⟩

/-- C3 counterexample: on a stopped engine (bpm 720000, so the per-step
threshold at 48 kHz is one sample) a single-frame callback invocation
advances the step counter from 0 to 1 — the counter does *not* advance only
while Running, because the step update sits outside the running branch. -/
theorem stopped_callback_advances_step :
    engineStopped.is_running = false ∧ engineStopped.current_step = 0 ∧
    (audioCallback 48000 [] 1 engineStopped).map (fun r => r.1.current_step) =
      some 1 := by
  refine ⟨rfl, rfl, ?_⟩
  have hL : 1 ≤ engineStopped.mixer.limiter.lookahead := by
    show 1 ≤ (Limiter.new 200 0.95 0.1).lookahead
    rw [show (Limiter.new 200 0.95 0.1).lookahead = ⌊(200 : ℝ) * 0.005⌋₊ from rfl]
    rw [show (200 : ℝ) * 0.005 = 1 from by norm_num]
    simp
  have hG : GoodLim engineStopped.mixer.limiter := goodLim_new 200 0.95 0.1 hL
  obtain ⟨stF, phF, outs, hloop⟩ :=
    frameLoop_some 48000 (samplesPerStep 48000 engineStopped.bpm)
      engineStopped.track_states (engineStopped.track_states.any fun s => s.soloed) 1 0
      { engineStopped with
          mixer := updateMixerEffects engineStopped.mixer engineStopped.effects }
      hL (goodLim_threshold engineStopped.mixer.limiter _ hG)
  have hcb : audioCallback 48000 [] 1 engineStopped =
      frameLoop 48000 (samplesPerStep 48000 engineStopped.bpm)
        engineStopped.track_states (engineStopped.track_states.any fun s => s.soloed) 1 0
        { engineStopped with
            mixer := updateMixerEffects engineStopped.mixer engineStopped.effects } := rfl
  have hproj := (frameLoop_proj 48000 (samplesPerStep 48000 engineStopped.bpm)
    engineStopped.track_states (engineStopped.track_states.any fun s => s.soloed) 1 0
    { engineStopped with
        mixer := updateMixerEffects engineStopped.mixer engineStopped.effects }
    stF phF outs hloop).1
  have hr : ({ engineStopped with
      mixer := updateMixerEffects engineStopped.mixer engineStopped.effects } :
      EngineState).is_running = false := rfl
  have hb : ({ engineStopped with
      mixer := updateMixerEffects engineStopped.mixer engineStopped.effects } :
      EngineState).bpm = 720000 := rfl
  have hcs : ({ engineStopped with
      mixer := updateMixerEffects engineStopped.mixer engineStopped.effects } :
      EngineState).current_step = 0 := rfl
  have hpub : ({ engineStopped with
      mixer := updateMixerEffects engineStopped.mixer engineStopped.effects } :
      EngineState).published = [] := rfl
  rw [hr, hb, hcs, hpub] at hproj
  rw [show samplesPerStep 48000 720000 = 1 from by norm_num [samplesPerStep]] at hproj
  have htrig := stepIterN_trigger false 720000 1 0 0 [] (by norm_num) (by norm_num)
  simp only [zero_add] at htrig
  rw [htrig] at hproj
  simp only [Prod.mk.injEq] at hproj
  obtain ⟨hp1, hp2, hp3⟩ := hproj
  rw [hcb, hloop]
  simp [hp2]

/-- C5 (confirmed): at bpm 120 and 48 kHz the per-step threshold is
`48000 × 60 / (120 × 4) = 6000` samples, and one callback invocation over
exactly 6000 frames while Running advances the step counter by exactly 1,
leaves the accumulator reset to zero, and publishes the new step modulo the
32-step cycle. -/
theorem step_timing_6000_frames :
    samplesPerStep 48000 120 = 6000 ∧
    ∀ (st : EngineState), st.bpm = 120 → st.is_running = true →
      1 ≤ st.mixer.limiter.lookahead → GoodLim st.mixer.limiter →
      ∃ stF phF outs, audioCallback 48000 [] 6000 st = some (stF, phF, outs) ∧
        stF.current_step = st.current_step + 1 ∧ phF = 0 ∧
        stF.published =
          { is_playing := true, current_step := (st.current_step + 1) % 32,
            bpm := 120, cpu_usage := 0 } :: st.published := by
  constructor
  · norm_num [samplesPerStep]
  · intro st hbpm hrun hL h
    obtain ⟨stF, phF, outs, hloop⟩ :=
      frameLoop_some 48000 (samplesPerStep 48000 st.bpm)
        st.track_states (st.track_states.any fun s => s.soloed) 6000 0
        { st with mixer := updateMixerEffects st.mixer st.effects }
        hL (goodLim_threshold st.mixer.limiter _ h)
    have hcb : audioCallback 48000 [] 6000 st =
        frameLoop 48000 (samplesPerStep 48000 st.bpm)
          st.track_states (st.track_states.any fun s => s.soloed) 6000 0
          { st with mixer := updateMixerEffects st.mixer st.effects } := rfl
    have hproj := (frameLoop_proj 48000 (samplesPerStep 48000 st.bpm)
      st.track_states (st.track_states.any fun s => s.soloed) 6000 0
      { st with mixer := updateMixerEffects st.mixer st.effects }
      stF phF outs hloop).1
    have hr : ({ st with mixer := updateMixerEffects st.mixer st.effects } :
        EngineState).is_running = true := hrun
    have hb : ({ st with mixer := updateMixerEffects st.mixer st.effects } :
        EngineState).bpm = 120 := hbpm
    have hcs : ({ st with mixer := updateMixerEffects st.mixer st.effects } :
        EngineState).current_step = st.current_step := rfl
    have hpub : ({ st with mixer := updateMixerEffects st.mixer st.effects } :
        EngineState).published = st.published := rfl
    rw [hr, hb, hcs, hpub] at hproj
    rw [show samplesPerStep 48000 120 = 6000 from by norm_num [samplesPerStep]] at hproj
    have htrig := stepIterN_trigger true 120 6000 5999 st.current_step st.published
      (by norm_num) (by norm_num)
    norm_num at htrig
    rw [htrig] at hproj
    simp only [Prod.mk.injEq] at hproj
    obtain ⟨hp1, hp2, hp3⟩ := hproj
    refine ⟨stF, phF, outs, ?_, hp2, hp1, hp3⟩
    rw [hcb]
    exact hloop

/-- C5 witness: the theorem applied to a concrete running engine at bpm 120
with a fresh mixer. -/
theorem step_timing_6000_frames_witness :
    engineRunning.bpm = 120 ∧ engineRunning.is_running = true ∧
    1 ≤ engineRunning.mixer.limiter.lookahead ∧
    GoodLim engineRunning.mixer.limiter ∧
    ∃ stF phF outs, audioCallback 48000 [] 6000 engineRunning = some (stF, phF, outs) ∧
      stF.current_step = engineRunning.current_step + 1 ∧ phF = 0 ∧
      stF.published =
        { is_playing := true, current_step := (engineRunning.current_step + 1) % 32,
          bpm := 120, cpu_usage := 0 } :: engineRunning.published := by
  have h3 : 1 ≤ engineRunning.mixer.limiter.lookahead := by
    show 1 ≤ (Limiter.new 200 0.95 0.1).lookahead
    rw [show (Limiter.new 200 0.95 0.1).lookahead = ⌊(200 : ℝ) * 0.005⌋₊ from rfl]
    rw [show (200 : ℝ) * 0.005 = 1 from by norm_num]
    simp
  have h4 : GoodLim engineRunning.mixer.limiter := goodLim_new 200 0.95 0.1 h3
  exact ⟨rfl, rfl, h3, h4, step_timing_6000_frames.2 engineRunning rfl rfl h3 h4⟩

/-- C8 (confirmed): each of the four track-indexed commands with an index
at or beyond the end of the track table leaves the whole engine state —
in particular every entry of the track table — unchanged, and the model
signals no error (command application is total). -/
theorem out_of_range_track_commands_ignored :
    ∀ (st : EngineState) (t : ℕ) (v : ℝ), st.track_states.length ≤ t →
      applyCommand st { cmd_type := "set_track_volume", track := some t, value := some v } = st ∧
      applyCommand st { cmd_type := "set_track_pan", track := some t, value := some v } = st ∧
      applyCommand st { cmd_type := "toggle_mute", track := some t, value := none } = st ∧
      applyCommand st { cmd_type := "toggle_solo", track := some t, value := none } = st := by
  intro st t v h
  have hnot : ¬ t < st.track_states.length := by omega
  refine ⟨?_, ?_, ?_, ?_⟩ <;> simp [applyCommand, hnot]

/-- C8 witness: `set_track_volume(99, 0.5)` (and the other three
track-indexed commands at index 99) on the 7-track roster change nothing. -/
theorem out_of_range_track_commands_ignored_witness :
    engineRunning.track_states.length ≤ 99 ∧
    (applyCommand engineRunning
        { cmd_type := "set_track_volume", track := some 99, value := some 0.5 } =
        engineRunning ∧
      applyCommand engineRunning
        { cmd_type := "set_track_pan", track := some 99, value := some 0.5 } =
        engineRunning ∧
      applyCommand engineRunning
        { cmd_type := "toggle_mute", track := some 99, value := none } =
        engineRunning ∧
      applyCommand engineRunning
        { cmd_type := "toggle_solo", track := some 99, value := none } =
        engineRunning) :=
  ⟨by norm_num [engineRunning, initialTracks],
   out_of_range_track_commands_ignored engineRunning 99 0.5
     (by norm_num [engineRunning, initialTracks])⟩
